import Mathlib

set_option maxHeartbeats 1000000
set_option linter.unusedVariables false

/-!
Verification development for the RTSP-to-HLS stream supervisor.

Shallow embedding of the Python source:
  - `src/api/auth.py`        : playback token mint / verify (JWT modelled abstractly)
  - `src/core/stream_analyzer.py` : codec compatibility verdict
  - `src/core/stream_manager.py`  : registry, start/stop, monitor, heartbeat
  - `src/main.py`            : HLS request handler `serve_hls`

Machine integers do not occur (all counters are small naturals); time is
modelled as seconds since an arbitrary epoch (`Nat`).  Async operations are
embedded as atomic state transformers: each supervisor entry point is a pure
function on a `ManagerState`, mirroring the source statement by statement.
-/

/-! ## Tokens (src/api/auth.py)

A JWT signed with the server secret is modelled as its decoded payload;
a token with a bad signature or unparseable structure is `Token.malformed`
(PyJWT raises `InvalidTokenError` for both, which the source maps to 401).
`exp`/`iat` are epoch seconds.  PyJWT treats a token as expired when
`exp <= now` (leeway 0).  A Python falsy `client_ip` (None or empty) is
modelled as `none`.
-/

structure TokenPayload where
  stream_id : String
  exp : Nat
  iat : Nat
  jti : String
  ip : Option String
deriving DecidableEq, Repr

inductive Token where
  | signed : TokenPayload → Token
  | malformed : Token
deriving DecidableEq, Repr

inductive VerifyOutcome where
  | ok : VerifyOutcome
  | httpError (status : Nat) (detail : String) : VerifyOutcome
deriving DecidableEq, Repr

/-- Embeds `create_stream_token` (auth.py:68-97): payload with expiry `now + hours`,
issued-at `now`, random `jti` (a parameter here), optional bound ip. -/
def create_stream_token (stream_id : String) (expires_hours : Nat)
    (client_ip : Option String) (now : Nat) (jti : String) : Token :=
  Token.signed
    { stream_id := stream_id
      exp := now + expires_hours * 3600
      iat := now
      jti := jti
      ip := client_ip }

/-- Model of `jwt.decode` with our secret: malformed or wrongly signed tokens raise
`InvalidTokenError` (→ 401), expired tokens raise `ExpiredSignatureError`
(→ 401), otherwise the payload is returned. -/
def jwtDecode (t : Token) (now : Nat) : Except VerifyOutcome TokenPayload :=
  match t with
  | Token.malformed => Except.error (VerifyOutcome.httpError 401 "Invalid token")
  | Token.signed p =>
      if p.exp ≤ now then Except.error (VerifyOutcome.httpError 401 "Token expired")
      else Except.ok p

/-- Embeds `verify_stream_token` (auth.py:100-131): decode (signature, structure,
expiry), then stream-id match (403), then, when the token carries an `ip`
claim AND a client address was supplied, exact address match (403). -/
def verify_stream_token (token : Token) (stream_id : String)
    (client_ip : Option String) (now : Nat) : VerifyOutcome :=
  match jwtDecode token now with
  | Except.error e => e
  | Except.ok p =>
      if p.stream_id ≠ stream_id then
        VerifyOutcome.httpError 403 "Token not valid for this stream"
      else
        match p.ip, client_ip with
        | some bound, some actual =>
            if bound ≠ actual then VerifyOutcome.httpError 403 "Token not valid for this IP"
            else VerifyOutcome.ok
        | _, _ => VerifyOutcome.ok

/-! ## Stream analyzer verdict (src/core/stream_analyzer.py)

`_analyze_compatibility` consumes the detected codec names.  A field never
set (no stream of that type in the probe output) is `none`; the extraction
code can also store the empty string, which Python treats as falsy, so the
truthiness test is modelled by `optTruthy`.
-/

def optTruthy : Option String → Bool
  | none => false
  | some s => s ≠ ""

def HLS_VIDEO_CODECS : List String := ["h264", "hevc", "h265"]

def HLS_AUDIO_CODECS : List String := ["aac", "mp3", "ac3"]

structure CompatInfo where
  can_copy_video : Bool
  can_copy_audio : Bool
  needs_transcode : Bool
  transcode_reasons : List String
deriving DecidableEq, Repr

/-- Embeds `StreamAnalyzer._analyze_compatibility` (stream_analyzer.py:227-262).
Video: normalize (lower-case, fold h265 into hevc), accept the h264 family
(names h264/avc) and the hevc family; otherwise, or with no video stream,
`can_copy_video` stays false and a reason is recorded.  Audio: accept
aac/mp3/ac3; no audio stream is fine.  `needs_transcode` is the negation of
`can_copy_video`.  (The reason strings drop the interpolated codec name.) -/
def _analyze_compatibility (video_codec audio_codec : Option String) : CompatInfo :=
  let vres :=
    if optTruthy video_codec then
      let vc := (video_codec.getD "").toLower
      let vcn := if vc = "hevc" ∨ vc = "h265" then "hevc" else vc
      if vcn = "h264" ∨ vcn = "avc" then (true, ([] : List String))
      else if vcn = "hevc" ∨ vcn = "h265" then (true, [])
      else (false, ["Video codec not HLS-compatible"])
    else (false, ["No video stream detected"])
  let ares :=
    if optTruthy audio_codec then
      if HLS_AUDIO_CODECS.contains (audio_codec.getD "").toLower then (true, ([] : List String))
      else (false, ["Audio codec needs transcoding to AAC"])
    else (true, [])
  { can_copy_video := vres.1
    can_copy_audio := ares.1
    needs_transcode := !vres.1
    transcode_reasons := vres.2 ++ ares.2 }

/-! ## Supervisor data model (src/core/stream_manager.py, src/database.py)

The registry `StreamManager._processes` is an association list keyed by
stream id; the catalog `streams` table is another association list.  The
runtime setting `max_concurrent_streams` (read through
`db.get_runtime_settings`, whose definition is not part of the supervisor
sources; per `api/settings.py` it is the db-stored value, default 30) is a
component of the manager state so that runtime changes are expressible.
Background tasks are modelled by their existence (`Bool`); a subprocess by
its pid (`Option Nat`); timestamps by `Nat` seconds; the db columns
`updated_at` / `last_viewer_time` mirrors-of-now are omitted.
-/

inductive StreamMode where
  | always_on : StreamMode
  | on_demand : StreamMode
  | smart : StreamMode
deriving DecidableEq, Repr

inductive StreamStatus where
  | stopped : StreamStatus
  | starting : StreamStatus
  | running : StreamStatus
  | reconnecting : StreamStatus
  | error : StreamStatus
deriving DecidableEq, Repr

/-- Catalog row (the fields of `database.Stream` the supervisor reads or
writes). -/
structure DbStream where
  id : String
  rtsp_url : String
  mode : StreamMode
  status : StreamStatus
  video_codec : Option String
  keep_alive_seconds : Nat
  viewer_count : Nat
  last_error : Option String
  pid : Option Nat
deriving DecidableEq, Repr

/-- Outcome of `analyzer.analyze` as consumed by `start_stream`
(`StreamInfo` restricted to the fields the supervisor uses). -/
structure ProbeLite where
  is_valid : Bool
  video_codec : Option String
  error : Option String
deriving DecidableEq, Repr

/-- Embeds `StreamProcess` (stream_manager.py:21-33).  `process` holds the pid of
the spawned transcoder; `task` is the monitor task. -/
structure StreamProcess where
  stream_id : String
  process : Option Nat := none
  task : Bool := false
  start_time : Option Nat := none
  last_viewer_time : Option Nat := none
  viewer_count : Nat := 0
  viewers : List String := []
  stream_info : Option ProbeLite := none
  keep_alive_task : Bool := false
  reconnect_count : Nat := 0
deriving DecidableEq, Repr

structure ManagerState where
  processes : List (String × StreamProcess)
  catalog : List (String × DbStream)
  max_concurrent : Nat
deriving DecidableEq, Repr

/-! ### Association-list primitives -/

def alookup {α : Type} : List (String × α) → String → Option α
  | [], _ => none
  | (k, v) :: rest, k2 => if k = k2 then some v else alookup rest k2

/-- Dict write `d[k] = v`: replace the first binding of `k`, else append. -/
def aset {α : Type} : List (String × α) → String → α → List (String × α)
  | [], k, v => [(k, v)]
  | (k1, v1) :: rest, k, v =>
      if k1 = k then (k1, v) :: rest else (k1, v1) :: aset rest k v

/-- Dict `d.pop(k, None)`: drop every binding of `k`. -/
def aremove {α : Type} : List (String × α) → String → List (String × α)
  | [], _ => []
  | (k1, v1) :: rest, k =>
      if k1 = k then aremove rest k else (k1, v1) :: aremove rest k

/-- SQL `UPDATE … WHERE id = k`: rewrite the value at `k` in place. -/
def amapAt {α : Type} : List (String × α) → String → (α → α) → List (String × α)
  | [], _, _ => []
  | (k1, v1) :: rest, k, f =>
      if k1 = k then (k1, f v1) :: amapAt rest k f
      else (k1, v1) :: amapAt rest k f

/-! ### Catalog writes (database.py) -/

/-- Embeds `db.update_stream_status` (database.py:600-613): overwrites `status`,
`last_error` and `pid` (the latter two with NULL when not passed). -/
def update_stream_status (cat : List (String × DbStream)) (id : String)
    (st : StreamStatus) (err : Option String) (pid : Option Nat) :
    List (String × DbStream) :=
  amapAt cat id (fun row => { row with status := st, last_error := err, pid := pid })

/-- Embeds `db.update_viewer_count` (database.py:615-625). -/
def update_viewer_count (cat : List (String × DbStream)) (id : String) (n : Nat) :
    List (String × DbStream) :=
  amapAt cat id (fun row => { row with viewer_count := n })

/-- Embeds `db.update_stream` (database.py:566-590): full-row rewrite. -/
def update_stream (cat : List (String × DbStream)) (id : String) (row : DbStream) :
    List (String × DbStream) :=
  amapAt cat id (fun _ => row)

/-! ### Supervisor operations -/

/-- Loop body of `_get_oldest_stream_id`: iterate in registry order keeping
the id with the strictly smallest `start_time` seen so far (entries without
a `start_time` are skipped; first minimum wins ties). -/
def getOldestGo : List (String × StreamProcess) → Option String → Option Nat → Option String
  | [], oid, _ => oid
  | (sid, p) :: rest, oid, ot =>
      match p.start_time with
      | none => getOldestGo rest oid ot
      | some t =>
          match ot with
          | none => getOldestGo rest (some sid) (some t)
          | some t0 =>
              if t < t0 then getOldestGo rest (some sid) (some t)
              else getOldestGo rest oid ot

/-- Embeds `StreamManager._get_oldest_stream_id` (stream_manager.py:84-95). -/
def _get_oldest_stream_id (procs : List (String × StreamProcess)) : Option String :=
  getOldestGo procs none none

/-- Embeds `StreamManager.stop_stream` (stream_manager.py:313-360).  Under the lock:
pop the entry (absent → return False).  Outside the lock the keep-alive task
is cancelled and awaited, the subprocess is terminated (SIGTERM, wait up to
5 s, SIGKILL on timeout) and the monitor task is cancelled — none of which
changes the registry or catalog — then status `stopped` is written. -/
def stop_stream (s : ManagerState) (stream_id : String) : ManagerState × Bool :=
  match alookup s.processes stream_id with
  | none => (s, false)
  | some _ =>
      let procs := aremove s.processes stream_id
      let cat := update_stream_status s.catalog stream_id StreamStatus.stopped none none
      ({ s with processes := procs, catalog := cat }, true)

/-- Capacity block of `start_stream` (stream_manager.py:108-132): when
`len(processes) >= max_concurrent`, pick the entry with the oldest
`start_time` and stop it outside the lock.  Only one victim is evicted. -/
def start_evict (s : ManagerState) : ManagerState :=
  if s.max_concurrent ≤ s.processes.length then
    match _get_oldest_stream_id s.processes with
    | some victim => (stop_stream s victim).1
    | none => s
  else s

/-- Fast path of `start_stream` (stream_manager.py:112-120): the stream is
already registered; attach the viewer if one was passed. -/
def start_fast_path (s : ManagerState) (stream_id : String) (proc : StreamProcess)
    (viewer_id : Option String) (now : Nat) : ManagerState × Bool :=
  match viewer_id with
  | none => (s, true)
  | some vid =>
      let viewers := if vid ∈ proc.viewers then proc.viewers else proc.viewers ++ [vid]
      let proc2 := { proc with
        viewers := viewers
        viewer_count := viewers.length
        last_viewer_time := some now }
      ({ s with
          processes := aset s.processes stream_id proc2
          catalog := update_viewer_count s.catalog stream_id proc2.viewer_count }, true)

/-- Mutations `_start_ffmpeg` applies to the registry entry on a successful
spawn (stream_manager.py:217-232): record subprocess and `start_time := now`
(line 218, unconditional — also on monitor-driven restarts), attach the
monitor task, and attach a keep-alive task only when the catalog row's mode
is `on_demand`. -/
def spawned_proc (proc : StreamProcess) (row : DbStream) (now : Nat) (pid : Nat) :
    StreamProcess :=
  let proc1 := { proc with process := some pid, start_time := some now }
  let proc2 := { proc1 with task := true }
  if row.mode = StreamMode.on_demand then { proc2 with keep_alive_task := true }
  else proc2

/-- Embeds `StreamManager._start_ffmpeg` (stream_manager.py:184-244).  `spawn` is
the outcome of `asyncio.create_subprocess_exec`: `some pid` on success,
`none` when spawning raises.  On success the entry is updated via
`spawned_proc` and status `running` (with pid) is written.  On failure
status `error` is written and the entry is removed. -/
def _start_ffmpeg (s : ManagerState) (stream_id : String) (now : Nat)
    (spawn : Option Nat) : ManagerState × Bool :=
  match alookup s.processes stream_id with
  | none => (s, false)
  | some proc =>
      match alookup s.catalog stream_id with
      | none => (s, false)
      | some row =>
          match spawn with
          | some pid =>
              let cat1 := update_stream_status s.catalog stream_id StreamStatus.running none (some pid)
              ({ s with processes := aset s.processes stream_id (spawned_proc proc row now pid)
                        catalog := cat1 }, true)
          | none =>
              let cat1 := update_stream_status s.catalog stream_id StreamStatus.error
                (some "Failed to start FFmpeg") none
              ({ s with processes := aremove s.processes stream_id, catalog := cat1 }, false)

/-- The fresh `StreamProcess` built inside the second critical section of
`start_stream` (stream_manager.py:148-153): viewer pre-seeded when one was
passed, `last_viewer_time := now`. -/
def mkFreshProc (stream_id : String) (viewer_id : Option String) (now : Nat) :
    StreamProcess :=
  let proc0 : StreamProcess := { stream_id := stream_id }
  let proc1 :=
    match viewer_id with
    | some vid => { proc0 with viewers := [vid], viewer_count := 1 }
    | none => proc0
  { proc1 with last_viewer_time := some now }

/-- Tail of `start_stream` (stream_manager.py:174-182): install the entry in
the registry (with the catalog as updated so far), run `_start_ffmpeg`
outside the lock, and on success push the viewer count to the catalog. -/
def start_insert_and_spawn (s1 : ManagerState) (stream_id : String)
    (proc : StreamProcess) (cat : List (String × DbStream)) (now : Nat)
    (spawn : Option Nat) : ManagerState × Bool :=
  let s2 := { s1 with catalog := cat, processes := aset s1.processes stream_id proc }
  let r := _start_ffmpeg s2 stream_id now spawn
  if r.2 then
    ({ r.1 with catalog := update_viewer_count r.1.catalog stream_id proc.viewer_count }, true)
  else (r.1, false)

/-- Second critical section of `start_stream` (stream_manager.py:134-182):
re-check presence, fetch the catalog row (absent → failure), write status
`starting`, build the fresh entry, probe when the row has no codec info
(probe failure → status `error`, failure), then insert and spawn. -/
def start_locked2 (s1 : ManagerState) (stream_id : String) (viewer_id : Option String)
    (now : Nat) (probe : ProbeLite) (spawn : Option Nat) : ManagerState × Bool :=
  match alookup s1.processes stream_id with
  | some _ => (s1, true)
  | none =>
      match alookup s1.catalog stream_id with
      | none => (s1, false)
      | some row =>
          let cat1 := update_stream_status s1.catalog stream_id StreamStatus.starting none none
          let proc2 := mkFreshProc stream_id viewer_id now
          if optTruthy row.video_codec then
            start_insert_and_spawn s1 stream_id proc2 cat1 now spawn
          else
            if probe.is_valid then
              let proc3 := { proc2 with stream_info := some probe }
              let row2 := { row with video_codec := probe.video_codec }
              let cat2 := update_stream cat1 stream_id row2
              start_insert_and_spawn s1 stream_id proc3 cat2 now spawn
            else
              let err := match probe.error with
                | some e => e
                | none => "Failed to analyze stream"
              let cat2 := update_stream_status cat1 stream_id StreamStatus.error (some err) none
              ({ s1 with catalog := cat2 }, false)

/-- Embeds `StreamManager.start_stream` (stream_manager.py:97-182).  `probe` is the
analyzer outcome used when the catalog row has no codec info; `spawn` as in
`_start_ffmpeg`.  Fast path when already registered; otherwise FIFO
eviction (`start_evict`), then the second critical section. -/
def start_stream (s : ManagerState) (stream_id : String) (viewer_id : Option String)
    (now : Nat) (probe : ProbeLite) (spawn : Option Nat) : ManagerState × Bool :=
  match alookup s.processes stream_id with
  | some proc => start_fast_path s stream_id proc viewer_id now
  | none => start_locked2 (start_evict s) stream_id viewer_id now probe spawn

/-- Embeds `StreamManager._monitor_process` (stream_manager.py:246-293) after the
awaited subprocess has exited with `exit_code`.  `error_output` stands for
the decoded stderr tail; `spawn` is the outcome of the restart attempt.
NOTE the `finally:` clause: the registry entry is popped on EVERY path
through the `try` body — including the reconnect path, whose `return`
statement still triggers `finally`.  Only the two early `return`s before
the `try` (no entry / no subprocess) skip the pop. -/
def _monitor_process_exit (s : ManagerState) (stream_id : String) (exit_code : Int)
    (max_reconnect_attempts : Nat) (now : Nat) (spawn : Option Nat)
    (error_output : String) : ManagerState :=
  match alookup s.processes stream_id with
  | none => s
  | some proc =>
      match proc.process with
      | none => s
      | some _ =>
          let s2 :=
            if exit_code ≠ 0 then
              match alookup s.catalog stream_id with
              | some _ =>
                  if proc.reconnect_count < max_reconnect_attempts then
                    let proc1 := { proc with reconnect_count := proc.reconnect_count + 1 }
                    let cat1 := update_stream_status s.catalog stream_id StreamStatus.reconnecting
                      (some ("Reconnecting (attempt " ++ toString proc1.reconnect_count ++ ")...")) none
                    let s1 := { s with processes := aset s.processes stream_id proc1, catalog := cat1 }
                    (_start_ffmpeg s1 stream_id now spawn).1
                  else
                    { s with catalog := (update_stream_status s.catalog stream_id
                        StreamStatus.error (some error_output) none) }
              | none =>
                  { s with catalog := (update_stream_status s.catalog stream_id
                      StreamStatus.error (some error_output) none) }
            else
              { s with catalog := update_stream_status s.catalog stream_id StreamStatus.stopped none none }
          { s2 with processes := aremove s2.processes stream_id }

/-- Embeds `StreamManager.viewer_heartbeat` (stream_manager.py:362-387). -/
def viewer_heartbeat (s : ManagerState) (stream_id viewer_id : String) (now : Nat)
    (probe : ProbeLite) (spawn : Option Nat) : ManagerState × Bool :=
  match alookup s.processes stream_id with
  | none =>
      match alookup s.catalog stream_id with
      | some row =>
          if row.mode = StreamMode.on_demand ∨ row.mode = StreamMode.smart then
            start_stream s stream_id (some viewer_id) now probe spawn
          else (s, false)
      | none => (s, false)
  | some proc =>
      let viewers := if viewer_id ∈ proc.viewers then proc.viewers else proc.viewers ++ [viewer_id]
      let proc2 := { proc with
        viewers := viewers
        viewer_count := viewers.length
        last_viewer_time := some now }
      ({ s with
          processes := aset s.processes stream_id proc2
          catalog := update_viewer_count s.catalog stream_id proc2.viewer_count }, true)

/-- Catalog status of a feed, for stating properties. -/
def statusOf (s : ManagerState) (stream_id : String) : Option StreamStatus :=
  (alookup s.catalog stream_id).map (fun row => row.status)

/-! ## HLS request handler (src/main.py, `serve_hls`)

The handler is embedded as a pure function of the request and of the
environment facts it consults: whether the catalog has a row for the feed,
whether the requested file is on disk, whether the lazy `start_stream`
call reports success, and — for the 500 ms polling loop — the first poll
iteration at which `stream.m3u8` exists on disk (`none` = never within the
window).  The viewer id passed to `start_stream` is the value returned by
`generate_viewer_id()`, a parameter here; the result records it so that
theorems can talk about which viewer id the start was given.
Responses carry the media type; the fixed no-cache / CORS headers are not
modelled.
-/

/-- Python `str.endswith`, evaluated over the character list (Lean's
`String.endsWith` does not reduce in the kernel). -/
def strEndsWith (s suffix : String) : Bool := suffix.data.isSuffixOf s.data

inductive HlsResponse where
  | file (contentType : String) : HlsResponse
  | httpError (status : Nat) (detail : String) : HlsResponse
deriving DecidableEq, Repr

structure ServeResult where
  response : HlsResponse
  startedViewer : Option String
deriving DecidableEq, Repr

/-- Number of iterations (`range(30)`) of the readiness poll. -/
def POLL_ITERATIONS : Nat := 30

/-- Poll interval: each iteration sleeps `asyncio.sleep(0.5)` (500 ms). -/
def POLL_INTERVAL_MS : Nat := 500

/-- Media type chosen at the bottom of `serve_hls` (main.py:136-139). -/
def hls_content_type (filename : String) : String :=
  if strEndsWith filename ".ts" then "video/mp2t" else "application/vnd.apple.mpegurl"

/-- Body of `serve_hls` after the suffix/token gate (main.py:108-148):
catalog lookup (404), file existence, lazy start + poll for
`stream.m3u8`, then `FileResponse`. -/
def serve_hls_body (stream_id filename : String) (streamInCatalog fileOnDisk : Bool)
    (freshViewerId : String) (startSucceeds : Bool) (fileAppearsAtPoll : Option Nat) :
    ServeResult :=
  if !streamInCatalog then
    { response := HlsResponse.httpError 404 "Stream not found", startedViewer := none }
  else if fileOnDisk then
    { response := HlsResponse.file (hls_content_type filename), startedViewer := none }
  else if filename = "stream.m3u8" then
    if startSucceeds then
      match fileAppearsAtPoll with
      | some k =>
          if k < POLL_ITERATIONS then
            { response := HlsResponse.file (hls_content_type filename)
              startedViewer := some freshViewerId }
          else
            { response := HlsResponse.httpError 404
                "Stream not ready. Please wait a moment and retry."
              startedViewer := some freshViewerId }
      | none =>
          { response := HlsResponse.httpError 404
              "Stream not ready. Please wait a moment and retry."
            startedViewer := some freshViewerId }
    else
      { response := HlsResponse.httpError 404
          "Stream not ready. Please wait a moment and retry."
        startedViewer := some freshViewerId }
  else
    { response := HlsResponse.httpError 404
        "Stream not ready. Please wait a moment and retry."
      startedViewer := none }

/-- Embeds `serve_hls` (main.py:80-148).  Playlists (`.m3u8`) demand a token,
verified WITHOUT passing the client address (main.py:98 calls
`verify_stream_token(token, stream_id)`); segments (`.ts`) skip the check;
any other suffix is 400. -/
def serve_hls (stream_id filename : String) (token : Option Token) (now : Nat)
    (streamInCatalog fileOnDisk : Bool) (freshViewerId : String)
    (startSucceeds : Bool) (fileAppearsAtPoll : Option Nat) : ServeResult :=
  let is_playlist := strEndsWith filename ".m3u8"
  let is_segment := strEndsWith filename ".ts"
  if is_playlist then
    match token with
    | none => { response := HlsResponse.httpError 401 "Token required", startedViewer := none }
    | some t =>
        match verify_stream_token t stream_id none now with
        | VerifyOutcome.ok =>
            serve_hls_body stream_id filename streamInCatalog fileOnDisk
              freshViewerId startSucceeds fileAppearsAtPoll
        | VerifyOutcome.httpError c d =>
            { response := HlsResponse.httpError c d, startedViewer := none }
  else if is_segment then
    serve_hls_body stream_id filename streamInCatalog fileOnDisk
      freshViewerId startSucceeds fileAppearsAtPoll
  else
    { response := HlsResponse.httpError 400 "Invalid file type", startedViewer := none }

/-! ## Reachable supervisor states (for the cap invariant)

A step is a completed `start_stream` or `stop_stream` call, or a runtime
change of the `max_concurrent_streams` setting (PUT /api/settings/server).
-/

inductive Step where
  | start (stream_id : String) (viewer_id : Option String) (now : Nat)
      (probe : ProbeLite) (spawn : Option Nat) : Step
  | stop (stream_id : String) : Step
  | setCap (n : Nat) : Step
deriving DecidableEq, Repr

def Step.isSetCap : Step → Bool
  | Step.setCap _ => true
  | _ => false

def applyStep (s : ManagerState) : Step → ManagerState
  | Step.start id v now probe spawn => (start_stream s id v now probe spawn).1
  | Step.stop id => (stop_stream s id).1
  | Step.setCap n => { s with max_concurrent := n }

def runSteps (init : ManagerState) (steps : List Step) : ManagerState :=
  steps.foldl applyStep init

/-! ## Association-list lemmas -/

theorem alookup_mem {α : Type} : ∀ (l : List (String × α)) (k : String) (v : α),
    alookup l k = some v → (k, v) ∈ l
  | [], k, v, h => by simp [alookup] at h
  | (k1, v1) :: tl, k, v, h => by
      unfold alookup at h
      by_cases hk : k1 = k
      · rw [if_pos hk] at h
        cases h
        subst hk
        exact List.mem_cons_self _ _
      · rw [if_neg hk] at h
        exact List.mem_cons_of_mem _ (alookup_mem tl k v h)

theorem alookup_eq_none {α : Type} : ∀ (l : List (String × α)) (k : String),
    alookup l k = none → ∀ p ∈ l, p.1 ≠ k
  | [], k, h => by intro p hp; simp at hp
  | (k1, v1) :: tl, k, h => by
      intro p hp
      unfold alookup at h
      by_cases hk : k1 = k
      · rw [if_pos hk] at h; cases h
      · rw [if_neg hk] at h
        rcases List.mem_cons.mp hp with h1 | h1
        · subst h1; exact hk
        · exact alookup_eq_none tl k h p h1

theorem alookup_aset_self {α : Type} : ∀ (l : List (String × α)) (k : String) (v : α),
    alookup (aset l k v) k = some v
  | [], k, v => by simp [aset, alookup]
  | (k1, v1) :: tl, k, v => by
      by_cases hk : k1 = k
      · simp [aset, alookup, hk]
      · simp [aset, alookup, hk, alookup_aset_self tl k v]

theorem alookup_aset_ne {α : Type} : ∀ (l : List (String × α)) (k k2 : String) (v : α),
    k ≠ k2 → alookup (aset l k v) k2 = alookup l k2
  | [], k, k2, v, h => by simp [aset, alookup, h]
  | (k1, v1) :: tl, k, k2, v, h => by
      by_cases hk : k1 = k
      · subst hk; simp [aset, alookup, h]
      · simp only [aset, if_neg hk]
        by_cases hk2 : k1 = k2
        · simp [alookup, hk2]
        · simp [alookup, hk2, alookup_aset_ne tl k k2 v h]

theorem aset_aset {α : Type} : ∀ (l : List (String × α)) (k : String) (a b : α),
    aset (aset l k a) k b = aset l k b
  | [], k, a, b => by simp [aset]
  | (k1, v1) :: tl, k, a, b => by
      by_cases hk : k1 = k
      · simp [aset, hk]
      · simp [aset, hk, aset_aset tl k a b]

theorem mem_aset {α : Type} : ∀ (l : List (String × α)) (k : String) (v : α)
    (p : String × α), p ∈ aset l k v → p.2 = v ∨ p ∈ l
  | [], k, v, p, h => by
      simp [aset] at h
      subst h; exact Or.inl rfl
  | (k1, v1) :: tl, k, v, p, h => by
      by_cases hk : k1 = k
      · simp only [aset, if_pos hk] at h
        rcases List.mem_cons.mp h with h1 | h1
        · subst h1; exact Or.inl rfl
        · exact Or.inr (List.mem_cons_of_mem _ h1)
      · simp only [aset, if_neg hk] at h
        rcases List.mem_cons.mp h with h1 | h1
        · subst h1; exact Or.inr (List.mem_cons_self _ _)
        · rcases mem_aset tl k v p h1 with h2 | h2
          · exact Or.inl h2
          · exact Or.inr (List.mem_cons_of_mem _ h2)

theorem length_aset_present {α : Type} : ∀ (l : List (String × α)) (k : String) (v : α),
    (alookup l k).isSome → (aset l k v).length = l.length
  | [], k, v, h => by simp [alookup] at h
  | (k1, v1) :: tl, k, v, h => by
      by_cases hk : k1 = k
      · simp [aset, hk]
      · unfold alookup at h
        rw [if_neg hk] at h
        simp [aset, hk, length_aset_present tl k v h]

theorem length_aset_absent {α : Type} : ∀ (l : List (String × α)) (k : String) (v : α),
    alookup l k = none → (aset l k v).length = l.length + 1
  | [], k, v, h => by simp [aset]
  | (k1, v1) :: tl, k, v, h => by
      unfold alookup at h
      by_cases hk : k1 = k
      · rw [if_pos hk] at h; cases h
      · rw [if_neg hk] at h
        simp [aset, hk, length_aset_absent tl k v h]

theorem aremove_eq_self {α : Type} : ∀ (l : List (String × α)) (k : String),
    alookup l k = none → aremove l k = l
  | [], k, h => by simp [aremove]
  | (k1, v1) :: tl, k, h => by
      unfold alookup at h
      by_cases hk : k1 = k
      · rw [if_pos hk] at h; cases h
      · rw [if_neg hk] at h
        simp [aremove, hk, aremove_eq_self tl k h]

theorem aremove_aset {α : Type} : ∀ (l : List (String × α)) (k : String) (v : α),
    aremove (aset l k v) k = aremove l k
  | [], k, v => by simp [aset, aremove]
  | (k1, v1) :: tl, k, v => by
      by_cases hk : k1 = k
      · simp [aset, aremove, hk]
      · simp [aset, aremove, hk, aremove_aset tl k v]

theorem length_aremove_le {α : Type} : ∀ (l : List (String × α)) (k : String),
    (aremove l k).length ≤ l.length
  | [], k => by simp [aremove]
  | (k1, v1) :: tl, k => by
      by_cases hk : k1 = k
      · simp only [aremove, if_pos hk, List.length_cons]
        exact Nat.le_succ_of_le (length_aremove_le tl k)
      · simp only [aremove, if_neg hk, List.length_cons]
        exact Nat.succ_le_succ (length_aremove_le tl k)

theorem length_aremove_lt {α : Type} : ∀ (l : List (String × α)) (k : String) (v : α),
    (k, v) ∈ l → (aremove l k).length < l.length
  | [], k, v, h => by simp at h
  | (k1, v1) :: tl, k, v, h => by
      by_cases hk : k1 = k
      · simp only [aremove, if_pos hk, List.length_cons]
        exact Nat.lt_succ_of_le (length_aremove_le tl k)
      · rcases List.mem_cons.mp h with h1 | h1
        · cases h1; exact absurd rfl hk
        · simp only [aremove, if_neg hk, List.length_cons]
          exact Nat.succ_lt_succ (length_aremove_lt tl k v h1)

theorem alookup_aremove_self {α : Type} : ∀ (l : List (String × α)) (k : String),
    alookup (aremove l k) k = none
  | [], k => by simp [aremove, alookup]
  | (k1, v1) :: tl, k => by
      by_cases hk : k1 = k
      · simp only [aremove, if_pos hk]
        exact alookup_aremove_self tl k
      · simp only [aremove, if_neg hk]
        unfold alookup
        rw [if_neg hk]
        exact alookup_aremove_self tl k

theorem alookup_aremove_none {α : Type} : ∀ (l : List (String × α)) (k k2 : String),
    alookup l k2 = none → alookup (aremove l k) k2 = none
  | [], k, k2, h => by simp [aremove, alookup]
  | (k1, v1) :: tl, k, k2, h => by
      unfold alookup at h
      by_cases hk2 : k1 = k2
      · rw [if_pos hk2] at h; cases h
      · rw [if_neg hk2] at h
        by_cases hk : k1 = k
        · simp only [aremove, if_pos hk]
          exact alookup_aremove_none tl k k2 h
        · simp only [aremove, if_neg hk]
          unfold alookup
          rw [if_neg hk2]
          exact alookup_aremove_none tl k k2 h

theorem alookup_aremove_ne {α : Type} : ∀ (l : List (String × α)) (k k2 : String),
    k ≠ k2 → alookup (aremove l k) k2 = alookup l k2
  | [], k, k2, h => by simp [aremove]
  | (k1, v1) :: tl, k, k2, h => by
      by_cases hk : k1 = k
      · subst hk
        have h1 : aremove ((k1, v1) :: tl) k1 = aremove tl k1 := by simp [aremove]
        have h2 : alookup ((k1, v1) :: tl) k2 = alookup tl k2 := by
          simp [alookup, h]
        rw [h1, h2]
        exact alookup_aremove_ne tl k1 k2 h
      · simp only [aremove, if_neg hk]
        unfold alookup
        by_cases hk2 : k1 = k2
        · rw [if_pos hk2, if_pos hk2]
        · rw [if_neg hk2, if_neg hk2]
          exact alookup_aremove_ne tl k k2 h

theorem mem_aremove {α : Type} : ∀ (l : List (String × α)) (k : String)
    (p : String × α), p ∈ aremove l k → p ∈ l
  | [], k, p, h => by simp [aremove] at h
  | (k1, v1) :: tl, k, p, h => by
      by_cases hk : k1 = k
      · simp only [aremove, if_pos hk] at h
        exact List.mem_cons_of_mem _ (mem_aremove tl k p h)
      · simp only [aremove, if_neg hk] at h
        rcases List.mem_cons.mp h with h1 | h1
        · subst h1; exact List.mem_cons_self _ _
        · exact List.mem_cons_of_mem _ (mem_aremove tl k p h1)

theorem alookup_amapAt_self {α : Type} : ∀ (l : List (String × α)) (k : String)
    (f : α → α), alookup (amapAt l k f) k = (alookup l k).map f
  | [], k, f => by simp [amapAt, alookup]
  | (k1, v1) :: tl, k, f => by
      by_cases hk : k1 = k
      · simp [amapAt, alookup, hk]
      · simp only [amapAt, if_neg hk]
        unfold alookup
        rw [if_neg hk, if_neg hk]
        exact alookup_amapAt_self tl k f

theorem alookup_amapAt_ne {α : Type} : ∀ (l : List (String × α)) (k k2 : String)
    (f : α → α), k ≠ k2 → alookup (amapAt l k f) k2 = alookup l k2
  | [], k, k2, f, h => by simp [amapAt]
  | (k1, v1) :: tl, k, k2, f, h => by
      by_cases hk : k1 = k
      · have hne : k1 ≠ k2 := by rw [hk]; exact h
        simp only [amapAt, if_pos hk]
        unfold alookup
        rw [if_neg hne, if_neg hne]
        exact alookup_amapAt_ne tl k k2 f h
      · simp only [amapAt, if_neg hk]
        unfold alookup
        by_cases hk2 : k1 = k2
        · rw [if_pos hk2, if_pos hk2]
        · rw [if_neg hk2, if_neg hk2]
          exact alookup_amapAt_ne tl k k2 f h

theorem length_amapAt {α : Type} : ∀ (l : List (String × α)) (k : String) (f : α → α),
    (amapAt l k f).length = l.length
  | [], k, f => by simp [amapAt]
  | (k1, v1) :: tl, k, f => by
      by_cases hk : k1 = k
      · simp [amapAt, hk, length_amapAt tl k f]
      · simp [amapAt, hk, length_amapAt tl k f]

/-! ## Oldest-entry lemmas -/

theorem getOldestGo_isSome_acc : ∀ (l : List (String × StreamProcess)) (sid : String)
    (t : Nat), (getOldestGo l (some sid) (some t)).isSome
  | [], sid, t => by simp [getOldestGo]
  | (sid1, p1) :: tl, sid, t => by
      cases hst : p1.start_time with
      | none =>
          simp only [getOldestGo, hst]
          exact getOldestGo_isSome_acc tl sid t
      | some t1 =>
          simp only [getOldestGo, hst]
          by_cases hlt : t1 < t
          · rw [if_pos hlt]
            exact getOldestGo_isSome_acc tl sid1 t1
          · rw [if_neg hlt]
            exact getOldestGo_isSome_acc tl sid t

theorem getOldestGo_none : ∀ (l : List (String × StreamProcess)),
    getOldestGo l none none = none → ∀ p ∈ l, p.2.start_time = none
  | [], h => by intro p hp; simp at hp
  | (sid1, p1) :: tl, h => by
      intro p hp
      cases hst : p1.start_time with
      | none =>
          simp only [getOldestGo, hst] at h
          rcases List.mem_cons.mp hp with h1 | h1
          · subst h1; exact hst
          · exact getOldestGo_none tl h p h1
      | some t1 =>
          simp only [getOldestGo, hst] at h
          have h2 := getOldestGo_isSome_acc tl sid1 t1
          rw [h] at h2
          cases h2

theorem getOldestGo_mem_acc : ∀ (l : List (String × StreamProcess)) (oid : Option String)
    (ot : Option Nat) (k : String), getOldestGo l oid ot = some k →
    oid = some k ∨ ∃ p ∈ l, p.1 = k
  | [], oid, ot, k, h => by
      simp only [getOldestGo] at h
      exact Or.inl h
  | (sid1, p1) :: tl, oid, ot, k, h => by
      cases hst : p1.start_time with
      | none =>
          simp only [getOldestGo, hst] at h
          rcases getOldestGo_mem_acc tl oid ot k h with h1 | ⟨p, hp, h2⟩
          · exact Or.inl h1
          · exact Or.inr ⟨p, List.mem_cons_of_mem _ hp, h2⟩
      | some t1 =>
          cases ot with
          | none =>
              simp only [getOldestGo, hst] at h
              rcases getOldestGo_mem_acc tl (some sid1) (some t1) k h with h1 | ⟨p, hp, h2⟩
              · cases h1
                exact Or.inr ⟨(sid1, p1), List.mem_cons_self _ _, rfl⟩
              · exact Or.inr ⟨p, List.mem_cons_of_mem _ hp, h2⟩
          | some t0 =>
              simp only [getOldestGo, hst] at h
              by_cases hlt : t1 < t0
              · rw [if_pos hlt] at h
                rcases getOldestGo_mem_acc tl (some sid1) (some t1) k h with h1 | ⟨p, hp, h2⟩
                · cases h1
                  exact Or.inr ⟨(sid1, p1), List.mem_cons_self _ _, rfl⟩
                · exact Or.inr ⟨p, List.mem_cons_of_mem _ hp, h2⟩
              · rw [if_neg hlt] at h
                rcases getOldestGo_mem_acc tl oid (some t0) k h with h1 | ⟨p, hp, h2⟩
                · exact Or.inl h1
                · exact Or.inr ⟨p, List.mem_cons_of_mem _ hp, h2⟩

theorem getOldest_mem {l : List (String × StreamProcess)} {k : String}
    (h : _get_oldest_stream_id l = some k) : ∃ p ∈ l, p.1 = k := by
  rcases getOldestGo_mem_acc l none none k h with h1 | h1
  · cases h1
  · exact h1

theorem getOldest_isSome {l : List (String × StreamProcess)} {p0 : String × StreamProcess}
    (hmem : p0 ∈ l) (hst : p0.2.start_time ≠ none) :
    (_get_oldest_stream_id l).isSome := by
  cases h : _get_oldest_stream_id l with
  | some k => rfl
  | none => exact absurd (getOldestGo_none l h p0 hmem) hst

/-! ## Registry invariant under supervisor steps -/

/-- The invariant carried through the reachability proof: the registry is
within the cap, and every entry records its `start_time` (true of every
entry a completed `start_stream` leaves behind). -/
def RegistryInv (s : ManagerState) : Prop :=
  s.processes.length ≤ s.max_concurrent ∧ ∀ p ∈ s.processes, p.2.start_time ≠ none

theorem exists_key_isSome {α : Type} {l : List (String × α)} {k : String}
    (h : ∃ p ∈ l, p.1 = k) : (alookup l k).isSome := by
  cases hl : alookup l k with
  | some v => rfl
  | none =>
      rcases h with ⟨p, hp, hpk⟩
      exact absurd hpk (alookup_eq_none l k hl p hp)

/-- Unfolding equations for `stop_stream`. -/
theorem stop_stream_absent {s : ManagerState} {id : String}
    (h : alookup s.processes id = none) : stop_stream s id = (s, false) := by
  unfold stop_stream; rw [h]

theorem stop_stream_present {s : ManagerState} {id : String} {proc : StreamProcess}
    (h : alookup s.processes id = some proc) :
    stop_stream s id =
      ({ s with processes := aremove s.processes id
                catalog := update_stream_status s.catalog id StreamStatus.stopped none none }, true) := by
  unfold stop_stream; rw [h]

theorem stop_stream_inv {s : ManagerState} (id : String) (hinv : RegistryInv s) :
    RegistryInv (stop_stream s id).1 ∧
    (stop_stream s id).1.max_concurrent = s.max_concurrent := by
  cases hl : alookup s.processes id with
  | none => rw [stop_stream_absent hl]; exact ⟨hinv, rfl⟩
  | some proc =>
      rw [stop_stream_present hl]
      refine ⟨⟨?_, ?_⟩, rfl⟩
      · exact le_trans (length_aremove_le _ _) hinv.1
      · intro p hp
        exact hinv.2 p (mem_aremove _ _ p hp)

theorem stop_stream_processes_none {s : ManagerState} {id k : String}
    (h : alookup s.processes k = none) :
    alookup (stop_stream s id).1.processes k = none := by
  cases hl : alookup s.processes id with
  | none => rw [stop_stream_absent hl]; exact h
  | some proc =>
      rw [stop_stream_present hl]
      exact alookup_aremove_none _ id k h

theorem start_evict_spec {s : ManagerState} (h1 : 1 ≤ s.max_concurrent)
    (hinv : RegistryInv s) :
    RegistryInv (start_evict s) ∧
    (start_evict s).max_concurrent = s.max_concurrent ∧
    (start_evict s).processes.length < s.max_concurrent ∧
    (∀ k, alookup s.processes k = none → alookup (start_evict s).processes k = none) ∧
    (∀ k, alookup s.processes k = none →
      alookup (start_evict s).catalog k = alookup s.catalog k) := by
  by_cases hfull : s.max_concurrent ≤ s.processes.length
  · have hlen : s.processes.length = s.max_concurrent := le_antisymm hinv.1 hfull
    have hne : s.processes ≠ [] := by
      intro hnil
      rw [hnil] at hlen
      simp at hlen
      omega
    rcases List.exists_mem_of_ne_nil s.processes hne with ⟨p0, hp0⟩
    have hsome := getOldest_isSome hp0 (hinv.2 p0 hp0)
    cases hvic : _get_oldest_stream_id s.processes with
    | none => rw [hvic] at hsome; cases hsome
    | some victim =>
        have hmem := getOldest_mem hvic
        have hvlook : (alookup s.processes victim).isSome := exists_key_isSome hmem
        cases hvl : alookup s.processes victim with
        | none => rw [hvl] at hvlook; cases hvlook
        | some vproc =>
            have hvmem : (victim, vproc) ∈ s.processes := alookup_mem _ _ _ hvl
            have hev : start_evict s = (stop_stream s victim).1 := by
              unfold start_evict
              rw [if_pos hfull, hvic]
            rw [hev, stop_stream_present hvl]
            refine ⟨⟨?_, ?_⟩, rfl, ?_, ?_, ?_⟩
            · exact le_trans (length_aremove_le _ _) hinv.1
            · intro p hp
              exact hinv.2 p (mem_aremove _ _ p hp)
            · calc (aremove s.processes victim).length
                  < s.processes.length := length_aremove_lt _ _ _ hvmem
                _ ≤ s.max_concurrent := hinv.1
            · intro k hk
              exact alookup_aremove_none _ victim k hk
            · intro k hk
              have hkv : victim ≠ k := by
                intro heq
                rw [heq] at hvl
                rw [hvl] at hk
                cases hk
              exact alookup_amapAt_ne _ victim k _ hkv
  · have hev : start_evict s = s := by
      unfold start_evict
      rw [if_neg hfull]
    rw [hev]
    exact ⟨hinv, rfl, Nat.lt_of_not_ge hfull, fun k hk => hk, fun k hk => rfl⟩

/-! ## Unfolding equations for the start path -/

theorem alookup_uss_self (cat : List (String × DbStream)) (id : String)
    (st : StreamStatus) (e : Option String) (p : Option Nat) :
    alookup (update_stream_status cat id st e p) id =
      (alookup cat id).map (fun row => { row with status := st, last_error := e, pid := p }) := by
  unfold update_stream_status
  exact alookup_amapAt_self cat id _

theorem alookup_uss_ne {id k : String} (cat : List (String × DbStream))
    (st : StreamStatus) (e : Option String) (p : Option Nat) (h : id ≠ k) :
    alookup (update_stream_status cat id st e p) k = alookup cat k := by
  unfold update_stream_status
  exact alookup_amapAt_ne cat id k _ h

theorem alookup_uvc_self (cat : List (String × DbStream)) (id : String) (n : Nat) :
    alookup (update_viewer_count cat id n) id =
      (alookup cat id).map (fun row => { row with viewer_count := n }) := by
  unfold update_viewer_count
  exact alookup_amapAt_self cat id _

theorem alookup_us_self (cat : List (String × DbStream)) (id : String) (row2 : DbStream) :
    alookup (update_stream cat id row2) id = (alookup cat id).map (fun _ => row2) := by
  unfold update_stream
  exact alookup_amapAt_self cat id _

theorem spawned_proc_start_time (proc : StreamProcess) (row : DbStream) (now pid : Nat) :
    (spawned_proc proc row now pid).start_time = some now := by
  unfold spawned_proc
  split <;> rfl

theorem spawned_proc_keep_alive (proc : StreamProcess) (row : DbStream) (now pid : Nat) :
    (spawned_proc proc row now pid).keep_alive_task =
      (if row.mode = StreamMode.on_demand then true else proc.keep_alive_task) := by
  unfold spawned_proc
  split <;> rfl

theorem start_stream_present {s : ManagerState} {id : String} {proc : StreamProcess}
    (v : Option String) (now : Nat) (probe : ProbeLite) (spawn : Option Nat)
    (h : alookup s.processes id = some proc) :
    start_stream s id v now probe spawn = start_fast_path s id proc v now := by
  unfold start_stream
  rw [h]

theorem start_stream_absent {s : ManagerState} {id : String}
    (v : Option String) (now : Nat) (probe : ProbeLite) (spawn : Option Nat)
    (h : alookup s.processes id = none) :
    start_stream s id v now probe spawn =
      start_locked2 (start_evict s) id v now probe spawn := by
  unfold start_stream
  rw [h]

theorem start_locked2_nocat {s1 : ManagerState} {id : String}
    (v : Option String) (now : Nat) (probe : ProbeLite) (spawn : Option Nat)
    (h : alookup s1.processes id = none) (hcat : alookup s1.catalog id = none) :
    start_locked2 s1 id v now probe spawn = (s1, false) := by
  simp only [start_locked2, h, hcat]

theorem start_locked2_truthy {s1 : ManagerState} {id : String} {row : DbStream}
    (v : Option String) (now : Nat) (probe : ProbeLite) (spawn : Option Nat)
    (h : alookup s1.processes id = none) (hcat : alookup s1.catalog id = some row)
    (htr : optTruthy row.video_codec = true) :
    start_locked2 s1 id v now probe spawn =
      start_insert_and_spawn s1 id (mkFreshProc id v now)
        (update_stream_status s1.catalog id StreamStatus.starting none none) now spawn := by
  simp only [start_locked2, h, hcat, htr, if_true]

theorem start_locked2_probe_ok {s1 : ManagerState} {id : String} {row : DbStream}
    (v : Option String) (now : Nat) (probe : ProbeLite) (spawn : Option Nat)
    (h : alookup s1.processes id = none) (hcat : alookup s1.catalog id = some row)
    (htr : optTruthy row.video_codec = false) (hval : probe.is_valid = true) :
    start_locked2 s1 id v now probe spawn =
      start_insert_and_spawn s1 id
        { mkFreshProc id v now with stream_info := some probe }
        (update_stream (update_stream_status s1.catalog id StreamStatus.starting none none)
          id { row with video_codec := probe.video_codec }) now spawn := by
  simp only [start_locked2, h, hcat, htr, hval, Bool.false_eq_true, if_false, if_true]

theorem start_locked2_probe_fail {s1 : ManagerState} {id : String} {row : DbStream}
    (v : Option String) (now : Nat) (probe : ProbeLite) (spawn : Option Nat)
    (h : alookup s1.processes id = none) (hcat : alookup s1.catalog id = some row)
    (htr : optTruthy row.video_codec = false) (hval : probe.is_valid = false) :
    start_locked2 s1 id v now probe spawn =
      ({ s1 with catalog := (update_stream_status
          (update_stream_status s1.catalog id StreamStatus.starting none none) id
          StreamStatus.error
          (some (match probe.error with | some e => e | none => "Failed to analyze stream"))
          none) }, false) := by
  simp only [start_locked2, h, hcat, htr, hval, Bool.false_eq_true, if_false]

theorem ffmpeg_spawn_some {s : ManagerState} {id : String} {proc : StreamProcess}
    {row : DbStream} (now pid : Nat)
    (h : alookup s.processes id = some proc) (hcat : alookup s.catalog id = some row) :
    _start_ffmpeg s id now (some pid) =
      ({ s with processes := aset s.processes id (spawned_proc proc row now pid)
                catalog := update_stream_status s.catalog id StreamStatus.running none (some pid) },
       true) := by
  simp only [_start_ffmpeg, h, hcat]

theorem ffmpeg_spawn_none {s : ManagerState} {id : String} {proc : StreamProcess}
    {row : DbStream} (now : Nat)
    (h : alookup s.processes id = some proc) (hcat : alookup s.catalog id = some row) :
    _start_ffmpeg s id now none =
      ({ s with processes := aremove s.processes id
                catalog := update_stream_status s.catalog id StreamStatus.error
                  (some "Failed to start FFmpeg") none }, false) := by
  simp only [_start_ffmpeg, h, hcat]

theorem start_insert_and_spawn_some {s1 : ManagerState} {id : String}
    {cat : List (String × DbStream)} {row1 : DbStream} (proc : StreamProcess)
    (now pid : Nat) (h0 : alookup s1.processes id = none)
    (hcat : alookup cat id = some row1) :
    start_insert_and_spawn s1 id proc cat now (some pid) =
      ({ processes := aset s1.processes id (spawned_proc proc row1 now pid)
         catalog := update_viewer_count
           (update_stream_status cat id StreamStatus.running none (some pid)) id
           proc.viewer_count
         max_concurrent := s1.max_concurrent }, true) := by
  have hl : alookup (aset s1.processes id proc) id = some proc := alookup_aset_self _ _ _
  simp only [start_insert_and_spawn]
  rw [ffmpeg_spawn_some now pid hl hcat]
  simp only [if_true, aset_aset]

theorem start_insert_and_spawn_none {s1 : ManagerState} {id : String}
    {cat : List (String × DbStream)} {row1 : DbStream} (proc : StreamProcess)
    (now : Nat) (h0 : alookup s1.processes id = none)
    (hcat : alookup cat id = some row1) :
    start_insert_and_spawn s1 id proc cat now none =
      ({ processes := s1.processes
         catalog := update_stream_status cat id StreamStatus.error
           (some "Failed to start FFmpeg") none
         max_concurrent := s1.max_concurrent }, false) := by
  have hl : alookup (aset s1.processes id proc) id = some proc := alookup_aset_self _ _ _
  simp only [start_insert_and_spawn]
  rw [ffmpeg_spawn_none now hl hcat]
  simp only [Bool.false_eq_true, if_false, aremove_aset, aremove_eq_self s1.processes id h0]

/-! ## Invariant preservation -/

theorem mk_processes (p : List (String × StreamProcess)) (c : List (String × DbStream))
    (m : Nat) : (ManagerState.mk p c m).processes = p := rfl

theorem mk_catalog (p : List (String × StreamProcess)) (c : List (String × DbStream))
    (m : Nat) : (ManagerState.mk p c m).catalog = c := rfl

theorem mk_max (p : List (String × StreamProcess)) (c : List (String × DbStream))
    (m : Nat) : (ManagerState.mk p c m).max_concurrent = m := rfl

theorem start_fast_path_inv {s : ManagerState} {id : String} {proc : StreamProcess}
    (v : Option String) (now : Nat) (hl : alookup s.processes id = some proc)
    (hinv : RegistryInv s) :
    RegistryInv (start_fast_path s id proc v now).1 ∧
    (start_fast_path s id proc v now).1.max_concurrent = s.max_concurrent := by
  cases v with
  | none => exact ⟨hinv, rfl⟩
  | some vid =>
      simp only [start_fast_path]
      refine ⟨⟨?_, ?_⟩, trivial⟩
      · have hsome2 : (alookup s.processes id).isSome := by rw [hl]; rfl
        rw [length_aset_present _ _ _ hsome2]
        exact hinv.1
      · intro p hp
        rcases mem_aset _ _ _ p hp with h2 | h2
        · rw [h2]
          exact hinv.2 (id, proc) (alookup_mem _ _ _ hl)
        · exact hinv.2 p h2

theorem start_stream_inv {s : ManagerState} (id : String) (v : Option String)
    (now : Nat) (probe : ProbeLite) (spawn : Option Nat)
    (h1 : 1 ≤ s.max_concurrent) (hinv : RegistryInv s) :
    RegistryInv (start_stream s id v now probe spawn).1 ∧
    (start_stream s id v now probe spawn).1.max_concurrent = s.max_concurrent := by
  cases hl : alookup s.processes id with
  | some proc =>
      rw [start_stream_present v now probe spawn hl]
      exact start_fast_path_inv v now hl hinv
  | none =>
      rw [start_stream_absent v now probe spawn hl]
      obtain ⟨hinv1, hcap1, hlt1, hpn, hcatn⟩ := start_evict_spec h1 hinv
      have hs1 : alookup (start_evict s).processes id = none := hpn id hl
      cases hcat : alookup (start_evict s).catalog id with
      | none =>
          rw [start_locked2_nocat v now probe spawn hs1 hcat]
          exact ⟨hinv1, hcap1⟩
      | some row =>
          cases htr : optTruthy row.video_codec with
          | true =>
              rw [start_locked2_truthy v now probe spawn hs1 hcat htr]
              have hcat1 : alookup (update_stream_status (start_evict s).catalog id
                  StreamStatus.starting none none) id =
                  some { row with status := StreamStatus.starting, last_error := none, pid := none } := by
                rw [alookup_uss_self, hcat]
                rfl
              cases spawn with
              | some pid =>
                  rw [start_insert_and_spawn_some _ now pid hs1 hcat1]
                  simp only [RegistryInv, mk_processes, mk_catalog, mk_max]
                  refine ⟨⟨?_, ?_⟩, hcap1⟩
                  · rw [length_aset_absent _ _ _ hs1]
                    omega
                  · intro p hp
                    rcases mem_aset _ _ _ p hp with h2 | h2
                    · rw [h2, spawned_proc_start_time]
                      simp
                    · exact hinv1.2 p h2
              | none =>
                  rw [start_insert_and_spawn_none _ now hs1 hcat1]
                  exact ⟨⟨hinv1.1, hinv1.2⟩, hcap1⟩
          | false =>
              cases hval : probe.is_valid with
              | true =>
                  rw [start_locked2_probe_ok v now probe spawn hs1 hcat htr hval]
                  have hcat2 : alookup (update_stream (update_stream_status
                      (start_evict s).catalog id StreamStatus.starting none none) id
                      { row with video_codec := probe.video_codec }) id =
                      some { row with video_codec := probe.video_codec } := by
                    rw [alookup_us_self, alookup_uss_self, hcat]
                    rfl
                  cases spawn with
                  | some pid =>
                      rw [start_insert_and_spawn_some _ now pid hs1 hcat2]
                      simp only [RegistryInv, mk_processes, mk_catalog, mk_max]
                      refine ⟨⟨?_, ?_⟩, hcap1⟩
                      · rw [length_aset_absent _ _ _ hs1]
                        omega
                      · intro p hp
                        rcases mem_aset _ _ _ p hp with h2 | h2
                        · rw [h2, spawned_proc_start_time]
                          simp
                        · exact hinv1.2 p h2
                  | none =>
                      rw [start_insert_and_spawn_none _ now hs1 hcat2]
                      exact ⟨⟨hinv1.1, hinv1.2⟩, hcap1⟩
              | false =>
                  rw [start_locked2_probe_fail v now probe spawn hs1 hcat htr hval]
                  exact ⟨⟨hinv1.1, hinv1.2⟩, hcap1⟩

theorem applyStep_inv (s : ManagerState) (st : Step) (h1 : 1 ≤ s.max_concurrent)
    (hinv : RegistryInv s) (hst : st.isSetCap = false) :
    RegistryInv (applyStep s st) ∧ (applyStep s st).max_concurrent = s.max_concurrent := by
  cases st with
  | start id v now probe spawn => exact start_stream_inv id v now probe spawn h1 hinv
  | stop id => exact stop_stream_inv id hinv
  | setCap n => simp [Step.isSetCap] at hst

theorem runSteps_inv (steps : List Step) (s : ManagerState)
    (h1 : 1 ≤ s.max_concurrent) (hinv : RegistryInv s)
    (hsteps : ∀ st ∈ steps, st.isSetCap = false) :
    RegistryInv (runSteps s steps) ∧ (runSteps s steps).max_concurrent = s.max_concurrent := by
  induction steps generalizing s with
  | nil => exact ⟨hinv, rfl⟩
  | cons st rest ih =>
      have h0 := applyStep_inv s st h1 hinv (hsteps st (List.mem_cons_self _ _))
      have h1b : 1 ≤ (applyStep s st).max_concurrent := by rw [h0.2]; exact h1
      have hrest : ∀ st2 ∈ rest, st2.isSetCap = false :=
        fun st2 h2 => hsteps st2 (List.mem_cons_of_mem _ h2)
      have hrec := ih (applyStep s st) h1b h0.1 hrest
      have hrun : runSteps s (st :: rest) = runSteps (applyStep s st) rest := by
        simp [runSteps]
      rw [hrun]
      exact ⟨hrec.1, hrec.2.trans h0.2⟩

/-! ## Claim theorems -/

/-- C4: token round-trip.  For every feed id `f`, expiry `h ≥ 1` hours and
optional bound address `a`: verifying a fresh mint against the same feed and
address succeeds; a token minted for `f1` verified against `f2 ≠ f1` yields
403; a bound-address mismatch yields 403; verification at or after the
expiry instant yields 401; a token with an invalid signature or bad
structure yields 401. -/
theorem c4_token_roundtrip (f f1 f2 : String) (h : Nat) (a : Option String)
    (x y : String) (now t2 : Nat) (jti : String)
    (hh : 1 ≤ h) (hne : f1 ≠ f2) (hxy : x ≠ y) (hexp2 : now + h * 3600 ≤ t2) :
    verify_stream_token (create_stream_token f h a now jti) f a now = VerifyOutcome.ok ∧
    verify_stream_token (create_stream_token f1 h a now jti) f2 a now =
      VerifyOutcome.httpError 403 "Token not valid for this stream" ∧
    verify_stream_token (create_stream_token f h (some x) now jti) f (some y) now =
      VerifyOutcome.httpError 403 "Token not valid for this IP" ∧
    verify_stream_token (create_stream_token f h a now jti) f a t2 =
      VerifyOutcome.httpError 401 "Token expired" ∧
    verify_stream_token Token.malformed f a now =
      VerifyOutcome.httpError 401 "Invalid token" := by
  have hpos : 0 < h * 3600 := Nat.mul_pos hh (by norm_num)
  have hnotexp : ¬ (now + h * 3600 ≤ now) := by omega
  refine ⟨?_, ?_, ?_, ?_, ?_⟩
  · cases a with
    | none => simp [verify_stream_token, create_stream_token, jwtDecode, hnotexp]
    | some ip => simp [verify_stream_token, create_stream_token, jwtDecode, hnotexp]
  · simp [verify_stream_token, create_stream_token, jwtDecode, hnotexp, hne]
  · simp [verify_stream_token, create_stream_token, jwtDecode, hnotexp, hxy]
  · simp [verify_stream_token, create_stream_token, jwtDecode, hexp2]
  · simp [verify_stream_token, jwtDecode]

/-- Closed witness for `c4_token_roundtrip` at concrete inputs. -/
theorem c4_token_roundtrip_witness :
    (1 ≤ 1 ∧ ("feedA" : String) ≠ "feedB" ∧ ("10.0.0.1" : String) ≠ "10.0.0.2" ∧
      0 + 1 * 3600 ≤ 3600) ∧
    (verify_stream_token (create_stream_token "feedZ" 1 (some "10.0.0.1") 0 "jt") "feedZ"
        (some "10.0.0.1") 0 = VerifyOutcome.ok ∧
     verify_stream_token (create_stream_token "feedA" 1 (some "10.0.0.1") 0 "jt") "feedB"
        (some "10.0.0.1") 0 = VerifyOutcome.httpError 403 "Token not valid for this stream" ∧
     verify_stream_token (create_stream_token "feedZ" 1 (some "10.0.0.1") 0 "jt") "feedZ"
        (some "10.0.0.2") 0 = VerifyOutcome.httpError 403 "Token not valid for this IP" ∧
     verify_stream_token (create_stream_token "feedZ" 1 (some "10.0.0.1") 0 "jt") "feedZ"
        (some "10.0.0.1") 3600 = VerifyOutcome.httpError 401 "Token expired" ∧
     verify_stream_token Token.malformed "feedZ" (some "10.0.0.1") 0 =
        VerifyOutcome.httpError 401 "Invalid token") :=
  ⟨⟨by decide, by decide, by decide, by decide⟩,
    by
      have h4 := c4_token_roundtrip "feedZ" "feedA" "feedB" 1 (some "10.0.0.1")
        "10.0.0.1" "10.0.0.2" 0 3600 "jt" (by decide) (by decide) (by decide) (by decide)
      exact h4⟩

/-- C7: the compatibility verdict.  `can_copy_video` holds exactly when a
video codec was detected and its lower-cased name is in the h264 family
(ffprobe names `h264`/`avc`) or the hevc family (`hevc`/`h265`);
`can_copy_audio` holds exactly when no audio stream was detected or the
lower-cased audio codec is aac/mp3/ac3; `needs_transcode` is the negation
of `can_copy_video`. -/
theorem c7_copy_policy (v a : Option String) :
    ((_analyze_compatibility v a).can_copy_video = true ↔
      (optTruthy v = true ∧
       ((v.getD "").toLower = "h264" ∨ (v.getD "").toLower = "avc" ∨
        (v.getD "").toLower = "hevc" ∨ (v.getD "").toLower = "h265"))) ∧
    ((_analyze_compatibility v a).can_copy_audio = true ↔
      (optTruthy a = false ∨
       ((a.getD "").toLower = "aac" ∨ (a.getD "").toLower = "mp3" ∨
        (a.getD "").toLower = "ac3"))) ∧
    (_analyze_compatibility v a).needs_transcode =
      !(_analyze_compatibility v a).can_copy_video := by
  refine ⟨?_, ?_, rfl⟩
  · cases htr : optTruthy v with
    | false => simp [_analyze_compatibility, htr]
    | true =>
        by_cases e1 : (v.getD "").toLower = "hevc" <;>
        by_cases e2 : (v.getD "").toLower = "h265" <;>
        by_cases e3 : (v.getD "").toLower = "h264" <;>
        by_cases e4 : (v.getD "").toLower = "avc" <;>
        simp_all [_analyze_compatibility]
  · cases htr : optTruthy a with
    | false => simp [_analyze_compatibility, htr]
    | true =>
        by_cases e1 : (a.getD "").toLower = "aac" <;>
        by_cases e2 : (a.getD "").toLower = "mp3" <;>
        by_cases e3 : (a.getD "").toLower = "ac3" <;>
        simp_all [_analyze_compatibility, HLS_AUDIO_CODECS]

/-- C10 (implicit): an otherwise-valid token that carries an `ip` binding
claim verifies successfully when no client address is supplied, and the
playlist path of `serve_hls` — which never passes the requester address —
serves the playlist despite the binding. -/
theorem c10_ip_binding_unenforced (p : TokenPayload) (sid ipaddr : String) (now : Nat)
    (hexp : ¬ p.exp ≤ now) (hsid : p.stream_id = sid) (hip : p.ip = some ipaddr) :
    verify_stream_token (Token.signed p) sid none now = VerifyOutcome.ok ∧
    (serve_hls sid "stream.m3u8" (some (Token.signed p)) now true true "viewer" true
        none).response = HlsResponse.file "application/vnd.apple.mpegurl" := by
  have hver : verify_stream_token (Token.signed p) sid none now = VerifyOutcome.ok := by
    simp [verify_stream_token, jwtDecode, hexp, hsid, hip]
  refine ⟨hver, ?_⟩
  have hm : strEndsWith "stream.m3u8" ".m3u8" = true := by decide
  have hts : strEndsWith "stream.m3u8" ".ts" = false := by decide
  simp only [serve_hls, hm, if_true, hver]
  simp [serve_hls_body, hls_content_type, hts]

/-- Closed witness for `c10_ip_binding_unenforced`. -/
theorem c10_ip_binding_unenforced_witness :
    (¬ (100 : Nat) ≤ 0) ∧
    (verify_stream_token
        (Token.signed { stream_id := "F", exp := 100, iat := 0, jti := "j", ip := some "10.0.0.1" })
        "F" none 0 = VerifyOutcome.ok ∧
     (serve_hls "F" "stream.m3u8"
        (some (Token.signed { stream_id := "F", exp := 100, iat := 0, jti := "j", ip := some "10.0.0.1" }))
        0 true true "viewer" true none).response =
       HlsResponse.file "application/vnd.apple.mpegurl") :=
  ⟨by decide,
    c10_ip_binding_unenforced
      { stream_id := "F", exp := 100, iat := 0, jti := "j", ip := some "10.0.0.1" }
      "F" "10.0.0.1" 0 (by decide) (by decide) (by decide)⟩

/-- C5: suffix policy of the HLS handler.  A `.m3u8` request with no token
is 401 before anything else is consulted; a `.ts` request for an existing
file of a known feed is served as `video/mp2t` with no token check and no
lazy start; any other suffix is 400. -/
theorem c5_hls_suffix_policy :
    (∀ (sid fn : String) (now : Nat) (cat fod : Bool) (fresh : String) (st : Bool)
       (ap : Option Nat), strEndsWith fn ".m3u8" = true →
       serve_hls sid fn none now cat fod fresh st ap =
         { response := HlsResponse.httpError 401 "Token required", startedViewer := none }) ∧
    (∀ (sid fn : String) (tok : Option Token) (now : Nat) (fresh : String) (st : Bool)
       (ap : Option Nat), strEndsWith fn ".m3u8" = false → strEndsWith fn ".ts" = true →
       serve_hls sid fn tok now true true fresh st ap =
         { response := HlsResponse.file "video/mp2t", startedViewer := none }) ∧
    (∀ (sid fn : String) (tok : Option Token) (now : Nat) (cat fod : Bool) (fresh : String)
       (st : Bool) (ap : Option Nat),
       strEndsWith fn ".m3u8" = false → strEndsWith fn ".ts" = false →
       serve_hls sid fn tok now cat fod fresh st ap =
         { response := HlsResponse.httpError 400 "Invalid file type", startedViewer := none }) := by
  refine ⟨?_, ?_, ?_⟩
  · intro sid fn now cat fod fresh st ap hm
    simp [serve_hls, hm]
  · intro sid fn tok now fresh st ap hm hts
    simp [serve_hls, serve_hls_body, hls_content_type, hm, hts]
  · intro sid fn tok now cat fod fresh st ap hm hts
    simp [serve_hls, hm, hts]

/-- Closed witness for `c5_hls_suffix_policy` at concrete requests. -/
theorem c5_hls_suffix_policy_witness :
    (strEndsWith "stream.m3u8" ".m3u8" = true ∧
     strEndsWith "segment_000.ts" ".m3u8" = false ∧
     strEndsWith "segment_000.ts" ".ts" = true ∧
     strEndsWith "notes.txt" ".m3u8" = false ∧
     strEndsWith "notes.txt" ".ts" = false) ∧
    serve_hls "F" "stream.m3u8" none 0 true true "v1" true none =
      { response := HlsResponse.httpError 401 "Token required", startedViewer := none } ∧
    serve_hls "F" "segment_000.ts" none 0 true true "v1" true none =
      { response := HlsResponse.file "video/mp2t", startedViewer := none } ∧
    serve_hls "F" "notes.txt" none 0 true true "v1" true none =
      { response := HlsResponse.httpError 400 "Invalid file type", startedViewer := none } :=
  ⟨⟨by decide, by decide, by decide, by decide, by decide⟩,
    c5_hls_suffix_policy.1 "F" "stream.m3u8" 0 true true "v1" true none (by decide),
    c5_hls_suffix_policy.2.1 "F" "segment_000.ts" none 0 "v1" true none (by decide) (by decide),
    c5_hls_suffix_policy.2.2 "F" "notes.txt" none 0 true true "v1" true none
      (by decide) (by decide)⟩

/-- C6 counterexample: the lazy-start path passes a freshly generated
viewer id to `start_stream` (main.py:119-121, `generate_viewer_id()`),
not the token's `jti` claim — here the token's jti is `"aaaa"` but the
started viewer is the generated `"bbbb"`. -/
theorem c6_viewer_id_counterexample :
    (serve_hls "F" "stream.m3u8"
        (some (Token.signed { stream_id := "F", exp := 100, iat := 0, jti := "aaaa", ip := none }))
        0 true false "bbbb" true (some 3)) =
      { response := HlsResponse.file "application/vnd.apple.mpegurl"
        startedViewer := some "bbbb" } ∧
    ({ stream_id := "F", exp := 100, iat := 0, jti := "aaaa", ip := none } : TokenPayload).jti
      = "aaaa" ∧
    (some "bbbb" : Option String) ≠ some "aaaa" := by decide

/-- C6 amended: for a playlist request with a valid token whose
`stream.m3u8` is not on disk, the handler calls `start_stream` with a
freshly generated random viewer id (not the token's jti), then polls for
the file every 500 ms for up to 30 iterations (15 s), serving it once
present within the window and otherwise returning 404 "Stream not
ready". -/
theorem c6_lazy_start_amended (sid : String) (p : TokenPayload) (now : Nat)
    (fresh : String) (ap : Option Nat)
    (hexp : ¬ p.exp ≤ now) (hsid : p.stream_id = sid) :
    (serve_hls sid "stream.m3u8" (some (Token.signed p)) now true false fresh true
        ap).startedViewer = some fresh ∧
    POLL_ITERATIONS = 30 ∧ POLL_INTERVAL_MS = 500 ∧
    POLL_ITERATIONS * POLL_INTERVAL_MS = 15000 ∧
    (serve_hls sid "stream.m3u8" (some (Token.signed p)) now true false fresh true
        ap).response =
      (match ap with
       | some k =>
           if k < POLL_ITERATIONS then HlsResponse.file "application/vnd.apple.mpegurl"
           else HlsResponse.httpError 404 "Stream not ready. Please wait a moment and retry."
       | none => HlsResponse.httpError 404 "Stream not ready. Please wait a moment and retry.") := by
  have hver : verify_stream_token (Token.signed p) sid none now = VerifyOutcome.ok := by
    cases hp : p.ip with
    | none => simp [verify_stream_token, jwtDecode, hexp, hsid, hp]
    | some ip => simp [verify_stream_token, jwtDecode, hexp, hsid, hp]
  have hm : strEndsWith "stream.m3u8" ".m3u8" = true := by decide
  have hts : strEndsWith "stream.m3u8" ".ts" = false := by decide
  refine ⟨?_, rfl, rfl, rfl, ?_⟩
  · simp only [serve_hls, hm, if_true, hver]
    cases ap with
    | none => simp [serve_hls_body]
    | some k =>
        by_cases hk : k < POLL_ITERATIONS
        · simp [serve_hls_body, hk]
        · simp [serve_hls_body, hk]
  · simp only [serve_hls, hm, if_true, hver]
    cases ap with
    | none => simp [serve_hls_body]
    | some k =>
        by_cases hk : k < POLL_ITERATIONS
        · simp [serve_hls_body, hls_content_type, hts, hk]
        · simp [serve_hls_body, hk]

/-- Closed witness for `c6_lazy_start_amended`. -/
theorem c6_lazy_start_amended_witness :
    (¬ (100 : Nat) ≤ 0) ∧
    ((serve_hls "F" "stream.m3u8"
        (some (Token.signed { stream_id := "F", exp := 100, iat := 0, jti := "aaaa", ip := none }))
        0 true false "bbbb" true (some 3)).startedViewer = some "bbbb" ∧
     POLL_ITERATIONS = 30 ∧ POLL_INTERVAL_MS = 500 ∧
     POLL_ITERATIONS * POLL_INTERVAL_MS = 15000 ∧
     (serve_hls "F" "stream.m3u8"
        (some (Token.signed { stream_id := "F", exp := 100, iat := 0, jti := "aaaa", ip := none }))
        0 true false "bbbb" true (some 3)).response =
       (match (some 3 : Option Nat) with
        | some k =>
            if k < POLL_ITERATIONS then HlsResponse.file "application/vnd.apple.mpegurl"
            else HlsResponse.httpError 404 "Stream not ready. Please wait a moment and retry."
        | none => HlsResponse.httpError 404 "Stream not ready. Please wait a moment and retry.")) :=
  ⟨by decide,
    c6_lazy_start_amended "F"
      { stream_id := "F", exp := 100, iat := 0, jti := "aaaa", ip := none }
      0 "bbbb" (some 3) (by decide) (by decide)⟩

/-- C8: `stop_stream` registry effect and idempotence.  On a registered
feed (with a catalog row): the entry is popped (under the mutex; the task
cancellation and SIGTERM / 5 s wait / SIGKILL teardown happen outside the
mutex and do not touch registry or catalog), other entries are untouched,
status `stopped` is persisted, and the call returns success; an immediate
second call is a no-op returning failure.  On an unregistered feed the
state is unchanged and the call returns failure. -/
theorem c8_stop_stream_idempotent :
    (∀ (s : ManagerState) (id : String) (proc : StreamProcess) (row : DbStream),
       alookup s.processes id = some proc →
       alookup s.catalog id = some row →
       (stop_stream s id).2 = true ∧
       alookup (stop_stream s id).1.processes id = none ∧
       statusOf (stop_stream s id).1 id = some StreamStatus.stopped ∧
       (∀ k, k ≠ id → alookup (stop_stream s id).1.processes k = alookup s.processes k) ∧
       stop_stream (stop_stream s id).1 id = ((stop_stream s id).1, false)) ∧
    (∀ (s : ManagerState) (id : String),
       alookup s.processes id = none → stop_stream s id = (s, false)) := by
  constructor
  · intro s id proc row hl hcat
    rw [stop_stream_present hl]
    refine ⟨rfl, ?_, ?_, ?_, ?_⟩
    · exact alookup_aremove_self s.processes id
    · simp only [statusOf, mk_catalog, update_stream_status, alookup_amapAt_self, hcat]
      rfl
    · intro k hk
      exact alookup_aremove_ne s.processes id k (Ne.symm hk)
    · exact stop_stream_absent (alookup_aremove_self s.processes id)
  · intro s id h
    exact stop_stream_absent h

/-- Concrete state for the `c8` witness. -/
def c8_proc : StreamProcess := { stream_id := "f", start_time := some 1 }

def c8_row : DbStream :=
  { id := "f", rtsp_url := "rtsp://cam/1", mode := StreamMode.always_on
    status := StreamStatus.running, video_codec := some "h264", keep_alive_seconds := 60
    viewer_count := 0, last_error := none, pid := some 5 }

def c8_state : ManagerState :=
  { processes := [("f", c8_proc)], catalog := [("f", c8_row)], max_concurrent := 30 }

/-- Closed witness for `c8_stop_stream_idempotent`. -/
theorem c8_stop_stream_idempotent_witness :
    (alookup c8_state.processes "f" = some c8_proc ∧
     alookup c8_state.catalog "f" = some c8_row ∧
     alookup c8_state.processes "g" = none) ∧
    ((stop_stream c8_state "f").2 = true ∧
     alookup (stop_stream c8_state "f").1.processes "f" = none ∧
     statusOf (stop_stream c8_state "f").1 "f" = some StreamStatus.stopped ∧
     (∀ k, k ≠ "f" → alookup (stop_stream c8_state "f").1.processes k =
        alookup c8_state.processes k) ∧
     stop_stream (stop_stream c8_state "f").1 "f" = ((stop_stream c8_state "f").1, false)) ∧
    stop_stream c8_state "g" = (c8_state, false) :=
  ⟨⟨by decide, by decide, by decide⟩,
    c8_stop_stream_idempotent.1 c8_state "f" c8_proc c8_row (by decide) (by decide),
    c8_stop_stream_idempotent.2 c8_state "g" (by decide)⟩

/-- The eviction step `start_evict` either leaves the state alone or stops a feed that is
currently registered. -/
theorem start_evict_cases (s : ManagerState) :
    start_evict s = s ∨
    ∃ victim vproc, alookup s.processes victim = some vproc ∧
      start_evict s = (stop_stream s victim).1 := by
  unfold start_evict
  by_cases hfull : s.max_concurrent ≤ s.processes.length
  · rw [if_pos hfull]
    cases hvic : _get_oldest_stream_id s.processes with
    | none => exact Or.inl rfl
    | some victim =>
        cases hvl : alookup s.processes victim with
        | none =>
            left
            show (stop_stream s victim).1 = s
            rw [stop_stream_absent hvl]
        | some vproc =>
            right
            exact ⟨victim, vproc, hvl, rfl⟩
  · rw [if_neg hfull]
    exact Or.inl rfl

/-- A feed absent from the registry is untouched (registry and catalog) by
the eviction step. -/
theorem start_evict_preserves {s : ManagerState} {id : String}
    (h : alookup s.processes id = none) :
    alookup (start_evict s).processes id = none ∧
    alookup (start_evict s).catalog id = alookup s.catalog id := by
  rcases start_evict_cases s with heq | ⟨victim, vproc, hvl, heq⟩
  · rw [heq]
    exact ⟨h, rfl⟩
  · have hvid : victim ≠ id := by
      intro he
      rw [he, h] at hvl
      cases hvl
    rw [heq, stop_stream_present hvl]
    constructor
    · exact alookup_aremove_none _ victim id h
    · exact alookup_uss_ne _ _ _ _ hvid

/-- C9: a feed freshly and successfully started by the supervisor gets a
keep-alive task iff the catalog row's mode is `on_demand`; at the
heartbeat start path, `smart` mode is treated like `on_demand` (both
trigger `start_stream` for a non-running feed) while `always_on` does not
start and reports not-running. -/
theorem c9_keep_alive_iff (s : ManagerState) (id vid : String) (v : Option String)
    (now : Nat) (probe : ProbeLite) (pid : Nat) (row : DbStream)
    (habs : alookup s.processes id = none)
    (hrow : alookup s.catalog id = some row)
    (hcodec : optTruthy row.video_codec = true) :
    ((start_stream s id v now probe (some pid)).2 = true ∧
     ∃ proc2, alookup (start_stream s id v now probe (some pid)).1.processes id = some proc2 ∧
       (proc2.keep_alive_task = true ↔ row.mode = StreamMode.on_demand)) ∧
    (row.mode = StreamMode.smart →
       viewer_heartbeat s id vid now probe (some pid) =
         start_stream s id (some vid) now probe (some pid)) ∧
    (row.mode = StreamMode.always_on →
       viewer_heartbeat s id vid now probe (some pid) = (s, false)) := by
  obtain ⟨hpn, hcf⟩ := start_evict_preserves habs
  have hcat : alookup (start_evict s).catalog id = some row := by rw [hcf]; exact hrow
  have hcat1 : alookup (update_stream_status (start_evict s).catalog id
      StreamStatus.starting none none) id =
      some { row with status := StreamStatus.starting, last_error := none, pid := none } := by
    rw [alookup_uss_self, hcat]
    rfl
  refine ⟨?_, ?_, ?_⟩
  · rw [start_stream_absent v now probe (some pid) habs,
      start_locked2_truthy v now probe (some pid) hpn hcat hcodec,
      start_insert_and_spawn_some _ now pid hpn hcat1]
    refine ⟨rfl, _, alookup_aset_self _ _ _, ?_⟩
    rw [spawned_proc_keep_alive]
    have hfresh : (mkFreshProc id v now).keep_alive_task = false := by
      cases v <;> rfl
    rw [hfresh]
    have hmode :
        ({ row with status := StreamStatus.starting, last_error := none, pid := none } : DbStream).mode = row.mode :=
      rfl
    rw [hmode]
    by_cases hm : row.mode = StreamMode.on_demand
    · simp [hm]
    · simp [hm]
  · intro hs
    simp only [viewer_heartbeat, habs, hrow]
    rw [if_pos (Or.inr hs)]
  · intro ha
    have hno : ¬(row.mode = StreamMode.on_demand ∨ row.mode = StreamMode.smart) := by
      rw [ha]
      intro hcon
      rcases hcon with h1 | h1 <;> cases h1
    simp only [viewer_heartbeat, habs, hrow]
    rw [if_neg hno]

/-- Concrete state for the `c9` witness: an on-demand feed with known
codec, empty registry. -/
def c9_row : DbStream :=
  { id := "f", rtsp_url := "rtsp://cam/9", mode := StreamMode.on_demand
    status := StreamStatus.stopped, video_codec := some "h264", keep_alive_seconds := 60
    viewer_count := 0, last_error := none, pid := none }

def c9_state : ManagerState :=
  { processes := [], catalog := [("f", c9_row)], max_concurrent := 30 }

def c9_probe : ProbeLite := { is_valid := true, video_codec := some "h264", error := none }

/-- Closed witness for `c9_keep_alive_iff`. -/
theorem c9_keep_alive_iff_witness :
    (alookup c9_state.processes "f" = none ∧
     alookup c9_state.catalog "f" = some c9_row ∧
     optTruthy c9_row.video_codec = true) ∧
    (((start_stream c9_state "f" none 7 c9_probe (some 41)).2 = true ∧
      ∃ proc2, alookup (start_stream c9_state "f" none 7 c9_probe
          (some 41)).1.processes "f" = some proc2 ∧
        (proc2.keep_alive_task = true ↔ c9_row.mode = StreamMode.on_demand)) ∧
     (c9_row.mode = StreamMode.smart →
        viewer_heartbeat c9_state "f" "v1" 7 c9_probe (some 41) =
          start_stream c9_state "f" (some "v1") 7 c9_probe (some 41)) ∧
     (c9_row.mode = StreamMode.always_on →
        viewer_heartbeat c9_state "f" "v1" 7 c9_probe (some 41) = (c9_state, false))) :=
  ⟨⟨by decide, by decide, by decide⟩,
    c9_keep_alive_iff c9_state "f" "v1" none 7 c9_probe 41 c9_row
      (by decide) (by decide) (by decide)⟩

/-- Concrete state for C2: one registered feed whose transcoder is alive,
reconnect budget untouched. -/
def c2_proc : StreamProcess :=
  { stream_id := "f", process := some 5, task := true, start_time := some 10
    last_viewer_time := some 10, reconnect_count := 0 }

def c2_row : DbStream :=
  { id := "f", rtsp_url := "rtsp://cam/2", mode := StreamMode.always_on
    status := StreamStatus.running, video_codec := some "h264", keep_alive_seconds := 60
    viewer_count := 0, last_error := none, pid := some 5 }

def c2_state : ManagerState :=
  { processes := [("f", c2_proc)], catalog := [("f", c2_row)], max_concurrent := 30 }

/-- C2: after an abnormal exit (code 1) with `reconnect_count 0 < 3` and a
successful restart spawn, the monitor body leaves the catalog saying
`running` (the restart happened and wrote status/pid) while the `finally`
clause has popped the feed from the registry — the entry is NOT reused
across the reconnect, contradicting the claim. -/
theorem c2_reconnect_pops_registry_entry :
    c2_proc.reconnect_count < 3 ∧
    alookup c2_state.processes "f" = some c2_proc ∧
    statusOf (_monitor_process_exit c2_state "f" 1 3 100 (some 77) "boom") "f" =
      some StreamStatus.running ∧
    alookup (_monitor_process_exit c2_state "f" 1 3 100 (some 77) "boom").processes "f" =
      none := by
  decide

/-- Concrete state for C3: a feed mid-session (one reconnect already done)
whose entry was first inserted with `start_time = 10`. -/
def c3_proc : StreamProcess :=
  { stream_id := "f", process := some 5, task := true, start_time := some 10
    last_viewer_time := some 10, reconnect_count := 1 }

def c3_row : DbStream :=
  { id := "f", rtsp_url := "rtsp://cam/3", mode := StreamMode.always_on
    status := StreamStatus.reconnecting, video_codec := some "h264", keep_alive_seconds := 60
    viewer_count := 0, last_error := none, pid := some 5 }

def c3_state : ManagerState :=
  { processes := [("f", c3_proc)], catalog := [("f", c3_row)], max_concurrent := 30 }

/-- C3 counterexample: the restart path (`_start_ffmpeg`, the function the
monitor re-enters) overwrites `start_time` with the restart time
(stream_manager.py:218) — here `some 10` becomes `some 100`. -/
theorem c3_start_time_counterexample :
    c3_proc.start_time = some 10 ∧
    alookup c3_state.processes "f" = some c3_proc ∧
    (_start_ffmpeg c3_state "f" 100 (some 77)).2 = true ∧
    alookup (_start_ffmpeg c3_state "f" 100 (some 77)).1.processes "f" =
      some (spawned_proc c3_proc c3_row 100 77) ∧
    (spawned_proc c3_proc c3_row 100 77).start_time = some 100 ∧
    (spawned_proc c3_proc c3_row 100 77).start_time ≠ c3_proc.start_time := by
  decide

/-- C3 amended: every successful `_start_ffmpeg` run — the fresh start and
every monitor-driven restart alike — sets the entry's `start_time` to the
call time, so a reconnecting feed moves to the newest end of the FIFO
eviction order instead of keeping its original `start_time`. -/
theorem c3_start_time_amended (s : ManagerState) (id : String) (proc : StreamProcess)
    (row : DbStream) (now pid : Nat)
    (hl : alookup s.processes id = some proc) (hcat : alookup s.catalog id = some row) :
    (_start_ffmpeg s id now (some pid)).2 = true ∧
    alookup (_start_ffmpeg s id now (some pid)).1.processes id =
      some (spawned_proc proc row now pid) ∧
    (spawned_proc proc row now pid).start_time = some now := by
  rw [ffmpeg_spawn_some now pid hl hcat]
  exact ⟨rfl, alookup_aset_self _ _ _, spawned_proc_start_time _ _ _ _⟩

/-- Closed witness for `c3_start_time_amended`. -/
theorem c3_start_time_amended_witness :
    (alookup c3_state.processes "f" = some c3_proc ∧
     alookup c3_state.catalog "f" = some c3_row) ∧
    ((_start_ffmpeg c3_state "f" 100 (some 77)).2 = true ∧
     alookup (_start_ffmpeg c3_state "f" 100 (some 77)).1.processes "f" =
       some (spawned_proc c3_proc c3_row 100 77) ∧
     (spawned_proc c3_proc c3_row 100 77).start_time = some 100) :=
  ⟨⟨by decide, by decide⟩,
    c3_start_time_amended c3_state "f" c3_proc c3_row 100 77 (by decide) (by decide)⟩

/-- Catalog rows and probe for the C1 runs. -/
def c1_row (i : String) : DbStream :=
  { id := i, rtsp_url := "rtsp://cam/x", mode := StreamMode.always_on
    status := StreamStatus.stopped, video_codec := some "h264", keep_alive_seconds := 60
    viewer_count := 0, last_error := none, pid := none }

def c1_probe : ProbeLite := { is_valid := true, video_codec := some "h264", error := none }

def c1_init : ManagerState :=
  { processes := []
    catalog := [("a", c1_row "a"), ("b", c1_row "b"), ("c", c1_row "c")]
    max_concurrent := 2 }

def c1_steps : List Step :=
  [Step.start "a" none 1 c1_probe (some 11), Step.start "b" none 2 c1_probe (some 12),
   Step.setCap 1, Step.start "c" none 3 c1_probe (some 13)]

/-- C1 counterexample: start two feeds under cap 2, lower the runtime cap
to 1, then start a third feed.  The start evicts only the single oldest
entry, so the reachable final state has 2 registry entries above the cap
of 1 — `|Registry| ≤ max_concurrent_streams` fails under runtime cap
changes. -/
theorem c1_cap_counterexample :
    (runSteps c1_init c1_steps).max_concurrent = 1 ∧
    (runSteps c1_init c1_steps).processes.length = 2 ∧
    ¬ ((runSteps c1_init c1_steps).processes.length ≤
        (runSteps c1_init c1_steps).max_concurrent) := by
  decide

/-- C1 amended: starting from an empty registry under a fixed positive cap,
every state reachable by completed `start_feed` / `stop_feed` steps
satisfies `|Registry| ≤ max_concurrent_streams`; the bound is maintained by
FIFO eviction of the single oldest entry before insertion.  (A runtime cap
decrease can break the bound — see the counterexample.) -/
theorem c1_cap_invariant_amended (cat : List (String × DbStream)) (cap : Nat)
    (steps : List Step) (hcap : 1 ≤ cap)
    (hfix : ∀ st ∈ steps, st.isSetCap = false) :
    (runSteps { processes := [], catalog := cat, max_concurrent := cap }
      steps).processes.length ≤ cap := by
  have hinv0 : RegistryInv { processes := [], catalog := cat, max_concurrent := cap } := by
    constructor
    · exact Nat.zero_le cap
    · intro p hp
      exact absurd hp (List.not_mem_nil p)
  have h := runSteps_inv steps { processes := [], catalog := cat, max_concurrent := cap }
    hcap hinv0 hfix
  calc (runSteps { processes := [], catalog := cat, max_concurrent := cap }
          steps).processes.length
      ≤ (runSteps { processes := [], catalog := cat, max_concurrent := cap }
          steps).max_concurrent := h.1.1
    _ = cap := h.2

def c1_wsteps : List Step :=
  [Step.start "a" none 1 c1_probe (some 11), Step.start "b" none 2 c1_probe (some 12),
   Step.start "c" none 3 c1_probe (some 13)]

/-- Closed witness for `c1_cap_invariant_amended`. -/
theorem c1_cap_invariant_amended_witness :
    (1 ≤ 2 ∧ ∀ st ∈ c1_wsteps, st.isSetCap = false) ∧
    (runSteps { processes := [], catalog := c1_init.catalog, max_concurrent := 2 }
      c1_wsteps).processes.length ≤ 2 :=
  ⟨⟨by decide, by decide⟩,
    c1_cap_invariant_amended c1_init.catalog 2 c1_wsteps (by decide) (by decide)⟩
